import Mathlib

/-!
Shallow embedding of the DreamBerd interpreter (src/src/index.ts): a
character-to-token lexer that groups tokens into statement lines split on
the terminator character, and a line-oriented interpreter maintaining a
variable table and emitting print output.

Machine strings are modelled as `List Char` / `String`.  JavaScript's
`parseInt` and the printing of its result go through IEEE-754 doubles; the
values involved here are always integral, so the doubles are modelled by
their exact integer values: digit runs are parsed exactly, rounded to the
nearest representable integer (round-to-nearest, ties-to-even, 53-bit
significand, with the binary64 overflow threshold to Infinity), and
rendered by ECMA `Number::toString` for integral values (shortest-digits
search; decimal notation below 10^21, exponent notation above).  The
source's `eval(commands.join())` output mechanism is modelled by its
observable effect: the string each synthesized `console.log` call writes.
-/

set_option maxRecDepth 8192

namespace DB

/-- Token kinds, mirroring the `TokenType` constant object of the source. -/
inductive TokenType where
  | Illegal
  | Eof
  | Ident
  | Print
  | ParentesesE
  | ParentesesD
  | EoL
  | SingleQuote
  | DoubleQuote
  | Variable
  | AssignOrEqual
  | Int
deriving DecidableEq, Repr

/-- A token: kind plus the literal source text that produced it. -/
structure Token where
  type : TokenType
  literal : String
deriving DecidableEq, Repr

/-- Mirrors `createToken` of the source. -/
def createToken (type : TokenType) (literal : String) : Token :=
  { type := type, literal := literal }

def nulChar : Char := Char.ofNat 0

/-- Mirrors `isLetter`: ASCII letter or underscore, by character code. -/
def isLetter (c : Char) : Bool :=
  (97 ≤ c.toNat && c.toNat ≤ 122) || (65 ≤ c.toNat && c.toNat ≤ 90) || c.toNat == 95

/-- Mirrors `isNumber`: ASCII digit, by character code. -/
def isNumber (c : Char) : Bool :=
  48 ≤ c.toNat && c.toNat ≤ 57

/-- Whitespace characters skipped by `skipWhitespace`: space, tab, LF, CR. -/
def isWsChar (c : Char) : Bool :=
  c.toNat == 32 || c.toNat == 9 || c.toNat == 10 || c.toNat == 13

/-- Lexer state.  In the source, after every `readChar` the invariant
`readPosition = position + 1` and `ch = input[position]` (or the NUL
sentinel past the end) holds, so `readPosition` and the cached `ch` are
derived fields and only `position` is kept. -/
structure LexState where
  input : List Char
  position : Nat
  lastToken : Token
  loc : Nat
deriving Repr

/-- The current character `this.ch`: `input[position]`, or NUL past the end
(mirrors `readChar`'s end-of-input sentinel). -/
def curCh (s : LexState) : Char :=
  s.input.getD s.position nulChar

/-- Mirrors `skipWhitespace`: advance past the maximal whitespace run at the
cursor (characters past end-of-input read as NUL, which is not whitespace,
exactly as the source's loop stops on the sentinel). -/
def skipWhitespace (s : LexState) : LexState :=
  { s with position := s.position + ((s.input.drop s.position).takeWhile isWsChar).length }

/-- Mirrors `readIdent` / `readInt`: consume the maximal run satisfying `p`
starting at the cursor and return the consumed slice. -/
def readWhile (p : Char → Bool) (s : LexState) : String × LexState :=
  let run := (s.input.drop s.position).takeWhile p
  (String.mk run, { s with position := s.position + run.length })

/-- Mirrors the `Keywords` table. -/
def keywordTok (s : String) : Option Token :=
  if s = "print" then some (createToken TokenType.Print "print")
  else if s = "var" then some (createToken TokenType.Variable "var")
  else none

/-- Mirrors the `switch (this.ch)` of `getNextToken`: the single-character
tokens and the end-of-input sentinel, by character code:
`(` `)` `!` single-quote double-quote `=` NUL. -/
def switchTok (c : Char) : Option Token :=
  if c.toNat == 40 then some (createToken TokenType.ParentesesE (String.singleton c))
  else if c.toNat == 41 then some (createToken TokenType.ParentesesD (String.singleton c))
  else if c.toNat == 33 then some (createToken TokenType.EoL "!")
  else if c.toNat == 39 then some (createToken TokenType.SingleQuote (String.singleton c))
  else if c.toNat == 34 then some (createToken TokenType.DoubleQuote (String.singleton c))
  else if c.toNat == 61 then some (createToken TokenType.AssignOrEqual "=")
  else if c.toNat == 0 then some (createToken TokenType.Eof "eof")
  else none

/-- Mirrors `Tokenizer.getNextToken`.  The source computes the switch result
first but consults it only after the letter/number checks; the character
classes are disjoint, so the branch order here is equivalent.  The `Illegal`
branch returns without advancing and without updating `lastToken`, exactly
as the source. -/
def getNextToken (s0 : LexState) : Token × LexState :=
  let s := skipWhitespace s0
  let c := curCh s
  if isLetter c then
    let (ident, s1) := readWhile isLetter s
    match keywordTok ident with
    | some kw => (kw, { s1 with lastToken := kw })
    | none =>
      let t := createToken TokenType.Ident ident
      (t, { s1 with lastToken := t })
  else if isNumber c then
    let (digits, s1) := readWhile isNumber s
    let t :=
      if s.lastToken.type = TokenType.SingleQuote ∨ s.lastToken.type = TokenType.DoubleQuote then
        createToken TokenType.Ident digits
      else
        createToken TokenType.Int digits
    (t, { s1 with lastToken := t })
  else
    match switchTok c with
    | some tok => (tok, { s with position := s.position + 1, lastToken := tok })
    | none => (createToken TokenType.Illegal (String.singleton c), s)

/-- The error message of the constructor's `throw`:
`Illegal token ${literal} at line ${loc}`. -/
def illegalMsg (lit : String) (loc : Nat) : String :=
  "Illegal token " ++ lit ++ " at line " ++ Nat.repr loc

/-- Mirrors the driving loop of the `Tokenizer` constructor: seal a line on
each terminator token, abort on `Illegal`, stop on end-of-input (discarding
the unsealed trailing accumulator), and otherwise accumulate the token into
the current line and the flat token list.  Each recursive step strictly
advances the cursor and the cursor stops at `input.length + 1`, so fuel
`input.length + 2` (supplied by `tokenize`) never runs out. -/
def lexLoop (fuel : Nat) (s : LexState) (line : List Token)
    (lines : List (List Token)) (tokens : List Token) :
    Except String (List (List Token) × List Token) :=
  match fuel with
  | 0 => Except.error "out of fuel"
  | Nat.succ fuel' =>
    let (tok, s1) := getNextToken s
    if tok.type = TokenType.EoL then
      lexLoop fuel' { s1 with loc := s1.loc + 1 } [] (lines ++ [line]) tokens
    else if tok.type = TokenType.Illegal then
      Except.error (illegalMsg tok.literal s1.loc)
    else if tok.type = TokenType.Eof then
      Except.ok (lines, tokens)
    else
      lexLoop fuel' s1 (line ++ [tok]) lines (tokens ++ [tok])

/-- The state at the start of the constructor loop (after the initial
`readChar`, which leaves `position = 0`): `lastToken` is the `Illegal`
placeholder and `loc = 0`. -/
def initState (input : String) : LexState :=
  { input := input.data, position := 0,
    lastToken := createToken TokenType.Illegal "Illegal", loc := 0 }

/-- Full lexing of an input: the sealed lines and the flat token list
(`Tokenizer.lines` and `Tokenizer.tokens`), or the constructor's thrown
error. -/
def tokenize (input : String) : Except String (List (List Token) × List Token) :=
  lexLoop (input.data.length + 2) (initState input) [] [] []

/-- The raw emitted token sequence of the same loop, terminators included,
end-of-input excluded (used to state the line-grouping claims). -/
def rawLoop (fuel : Nat) (s : LexState) : Except String (List Token) :=
  match fuel with
  | 0 => Except.error "out of fuel"
  | Nat.succ fuel' =>
    let (tok, s1) := getNextToken s
    if tok.type = TokenType.EoL then
      (rawLoop fuel' { s1 with loc := s1.loc + 1 }).map (fun ts => tok :: ts)
    else if tok.type = TokenType.Illegal then
      Except.error (illegalMsg tok.literal s1.loc)
    else if tok.type = TokenType.Eof then
      Except.ok []
    else
      (rawLoop fuel' s1).map (fun ts => tok :: ts)

def rawTokens (input : String) : Except String (List Token) :=
  rawLoop (input.data.length + 2) (initState input)

/-- Specification-side line grouping (from the spec's words): split a token
sequence on terminator tokens, one sealed line per terminator, the
terminator itself excluded, and any trailing group after the last terminator
discarded. -/
def splitGo : List Token → List Token → List (List Token)
  | [], _ => []
  | t :: rest, cur =>
    if t.type = TokenType.EoL then cur :: splitGo rest []
    else splitGo rest (cur ++ [t])

def splitOnBang (ts : List Token) : List (List Token) :=
  splitGo ts []

/-- The `type` field of the source's `IVariable`. -/
inductive VType where
  | string
  | number
deriving DecidableEq, Repr

/-- Mirrors the `IVariable` record (its `value` is always assigned a token
literal, hence a string). -/
structure IVariable where
  declaration : String
  type : VType
  value : String
deriving DecidableEq, Repr

/-- The variable table: insertion-ordered key/value list with the `Map`
`get`/`set`/`has` semantics the interpreter uses. -/
abbrev VMap := List (String × IVariable)

def vget : VMap → String → Option IVariable
  | [], _ => none
  | (k, v) :: rest, key => if k = key then some v else vget rest key

def vset : VMap → String → IVariable → VMap
  | [], key, v => [(key, v)]
  | (k, w) :: rest, key, v =>
    if k = key then (key, v) :: rest else (k, w) :: vset rest key v

def vhas (m : VMap) (key : String) : Bool :=
  (vget m key).isSome

/-- The placeholder token `find` starts from. -/
def illegalToken : Token := createToken TokenType.Illegal "Illegal"

/-- Mirrors the interpreter's `find` loop: scan the line for tokens of kind
`tt`; on the match whose running match-count equals `index`, stop and return
it; if the scan ends early, return the last token matched so far (or the
`Illegal` placeholder when none matched). -/
def findAux (tt : TokenType) (index : Nat) : List Token → Nat → Token → Token
  | [], _, tok => tok
  | t :: rest, i, tok =>
    if t.type = tt then
      if i = index then t else findAux tt index rest (i + 1) t
    else
      findAux tt index rest i tok

def find (tt : TokenType) (line : List Token) (index : Nat) : Token :=
  findAux tt index line 0 illegalToken

/-- Mirrors `hasVariable`: does any token's literal occur as a table key? -/
def hasVariable (vars : VMap) (line : List Token) : Bool :=
  line.any (fun t => vhas vars t.literal)

/-- Numeric value of a digit run. -/
def digitsVal (cs : List Char) : Nat :=
  cs.foldl (fun a c => a * 10 + (c.toNat - 48)) 0

/-- The result of JavaScript `parseInt`: NaN, a signed infinity, or a
finite integral IEEE-754 double given by sign and exact magnitude (every
finite double produced by `parseInt` on sign+digit input is integral, so
its exact value is a natural number). -/
inductive JsNum where
  | nan
  | inf (neg : Bool)
  | int (neg : Bool) (mag : Nat)
deriving DecidableEq, Repr

/-- Bit length with explicit fuel (structural, so it evaluates in the
kernel).  Correct for `n < 2 ^ 1100`; every magnitude this model feeds it
is below `2 ^ 1031` (see `roundMag`). -/
def bitLenAux : Nat → Nat → Nat
  | 0, _ => 0
  | f + 1, n => if n = 0 then 0 else bitLenAux f (n / 2) + 1

def bitLen (n : Nat) : Nat :=
  bitLenAux 1100 n

/-- IEEE-754 binary64 round-to-nearest, ties-to-even, restricted to natural
numbers: keep the top 53 bits of `n`, rounding the remainder (exact for
`n < 2 ^ 53`).  Callers pass magnitudes below `2 ^ 1031`: the finite-double
threshold in `toJsDouble` caps parsed magnitudes at `2 ^ 1024 - 2 ^ 970`,
and the digit-search candidates in `ecmaPick` stay within a factor ~10 of
such a magnitude. -/
def roundMag (n : Nat) : Nat :=
  let b := bitLen n
  if b ≤ 53 then n
  else
    let sh := b - 53
    let q := n / 2 ^ sh
    let r := n % 2 ^ sh
    let half := 2 ^ (sh - 1)
    if r > half ∨ (r = half ∧ q % 2 = 1) then (q + 1) * 2 ^ sh else q * 2 ^ sh

/-- Convert an exact parsed magnitude to a double: magnitudes at or above
the overflow midpoint `2 ^ 1024 - 2 ^ 970` (halfway between the largest
finite double and `2 ^ 1024`; the tie rounds up to the even candidate)
become Infinity, the rest round to the nearest representable integer. -/
def toJsDouble (neg : Bool) (mag : Nat) : JsNum :=
  if 2 ^ 1024 - 2 ^ 970 ≤ mag then JsNum.inf neg else JsNum.int neg (roundMag mag)

/-- JavaScript `parseInt(s)`, modelled for optional-sign plus digit-prefix
strings — the only shapes the interpreter ever stores as number values are
digit runs and the placeholder literal `Illegal`, so whitespace trimming
and radix prefixes never arise.  The digits are read exactly and then
rounded to a double by `toJsDouble`. -/
def jsParseInt (str : String) : JsNum :=
  match str.data with
  | [] => JsNum.nan
  | c :: cs =>
    if c.toNat == 45 then
      (let ds := cs.takeWhile isNumber
       if ds.isEmpty then JsNum.nan else toJsDouble true (digitsVal ds))
    else if c.toNat == 43 then
      (let ds := cs.takeWhile isNumber
       if ds.isEmpty then JsNum.nan else toJsDouble false (digitsVal ds))
    else
      (let ds := (c :: cs).takeWhile isNumber
       if ds.isEmpty then JsNum.nan else toJsDouble false (digitsVal ds))

/-- One step of the ECMA `Number::toString` digit search, at scale
`E = 10 ^ (n - k)`: among the multiples of `E`, only the two nearest to the
double's exact value `m` can round back to it and be chosen (the rounding
interval of `m` is an interval around `m`, so in-interval multiples are
consecutive and the ECMA closest-to-`m` rule discards all but the nearest
below, `m / E`, and the nearest above); the ECMA tie goes to the even
digits. -/
def ecmaPick (m E : Nat) : Option Nat :=
  let s0 := m / E
  let c0 : Option Nat := if roundMag (s0 * E) = m then some s0 else none
  let c1 : Option Nat := if roundMag ((s0 + 1) * E) = m then some (s0 + 1) else none
  match c0, c1 with
  | none, none => none
  | some a, none => some a
  | none, some b => some b
  | some a, some b =>
    if m - a * E < b * E - m then some a
    else if b * E - m < m - a * E then some b
    else if a % 2 = 0 then some a else some b

/-- ECMA 6.1.6.1.20 digit selection for an integral double of exact value
`m` with `n` decimal digits: the smallest digit count `k` such that some
`k`-digit `s` makes `s * 10 ^ (n - k)` round back to `m`, with the
closest-then-even choice of `s`.  Returns `(s, k, n)`.  A chosen candidate
`s = 10 ^ k` (the upper neighbour crossing the power of ten, as for the
double nearest `10 ^ 23`) is renormalized to digits `1` with the exponent
bumped.  The scan always succeeds by `k = n` (with `s = m`, since `m` is
itself a double value), so the fallback is unreachable. -/
def ecmaSearchAux (m n : Nat) : List Nat → Nat × Nat × Nat
  | [] => (m, n, n)
  | k :: rest =>
    match ecmaPick m (10 ^ (n - k)) with
    | some s => if s = 10 ^ k then (1, 1, n + 1) else (s, k, n)
    | none => ecmaSearchAux m n rest

def ecmaRepr (m : Nat) : Nat × Nat × Nat :=
  let n := (Nat.toDigits 10 m).length
  ecmaSearchAux m n (List.range' 1 n)

/-- ECMA `Number::toString` (radix 10) for a non-negative integral double
of exact value `m`.  Fast path: every integer below `2 ^ 53` is an exactly
representable double, and any candidate `s * 10 ^ (n - k)` that rounds to
it is an integer that must equal it (integers below `2 ^ 53` round to
themselves and integers at or above `2 ^ 53` round to values at or above
`2 ^ 53`), so the ECMA digits-plus-zeros output is exactly the decimal
numeral of `m`.  Otherwise run the digit search: decimal notation (digits
followed by zeros) when the value has at most 21 digits, exponent notation
`d.ddd e+P` above that. -/
def natToStringJs (m : Nat) : String :=
  if m < 9007199254740992 then Nat.repr m
  else
    let (s, k, n) := ecmaRepr m
    if n ≤ 21 then Nat.repr s ++ String.mk (List.replicate (n - k) (Char.ofNat 48))
    else if k = 1 then Nat.repr s ++ "e+" ++ Nat.repr (n - 1)
    else
      match Nat.toDigits 10 s with
      | [] => ""
      | d :: ds => String.mk [d] ++ "." ++ String.mk ds ++ "e+" ++ Nat.repr (n - 1)

/-- What `console.log(parseInt(value))` writes: `NaN`, a signed Infinity,
or the ECMA rendering of the integral double (with a minus sign for
negative non-zero values; negative zero prints `0`). -/
def numRender (v : String) : String :=
  match jsParseInt v with
  | JsNum.nan => "NaN"
  | JsNum.inf neg => if neg then "-Infinity" else "Infinity"
  | JsNum.int neg mag =>
    if neg = true ∧ mag ≠ 0 then "-" ++ natToStringJs mag else natToStringJs mag

/-- Trace of the actions a line's dispatch loop executed: each variable
store and each print emission, in execution order. -/
inductive ActionTag where
  | decl (key : String) (record : IVariable)
  | print (out : String)
deriving DecidableEq, Repr

/-- The thrown `TypeError` when `variables.get(key)` is `undefined` and
`.type` is read. -/
def typeErrUndefined : String :=
  "TypeError: Cannot read properties of undefined (reading type)"

/-- The thrown `TypeError` when `line[1]` is `undefined` and `.literal` is
read. -/
def typeErrLiteral : String :=
  "TypeError: Cannot read properties of undefined (reading literal)"

/-- The record the `Variable` branch stores: the quote search decides
string vs number, the value comes from the second `Ident` token
(`find(Ident, line, 1)`) resp. the first `Int` token, and `declaration` is
the fixed constant `var var`. -/
def declRecord (all : List Token) : IVariable :=
  if (find TokenType.SingleQuote all 0).type ≠ TokenType.Illegal
      ∨ (find TokenType.DoubleQuote all 0).type ≠ TokenType.Illegal then
    IVariable.mk "var var" VType.string (find TokenType.Ident all 1).literal
  else
    IVariable.mk "var var" VType.number (find TokenType.Int all 0).literal

/-- Mirrors the interpreter's inner per-line loop.  `all` is the whole line
(the source's `line`, scanned by `find`/`hasVariable`); the second argument
is the remaining suffix the loop still walks.  The `Print` branch ends the
loop (`break` in the source); the `Variable` branch stores and falls
through to the next token.  Returns the executed-action trace together with
the printed output and updated table (or the modelled thrown error). -/
def lineLoop (all : List Token) :
    List Token → VMap → List ActionTag × Except String (List String × VMap)
  | [], vars => ([], Except.ok ([], vars))
  | atual :: rest, vars =>
    if atual.type = TokenType.Print then
      (if hasVariable vars all then
        match vget vars (find TokenType.Ident all 0).literal with
        | none => ([], Except.error typeErrUndefined)
        | some v =>
          match v.type with
          | VType.number =>
            ([ActionTag.print (numRender v.value)], Except.ok ([numRender v.value], vars))
          | VType.string =>
            ([ActionTag.print v.value], Except.ok ([v.value], vars))
      else
        ([ActionTag.print (find TokenType.Ident all 0).literal],
          Except.ok ([(find TokenType.Ident all 0).literal], vars)))
    else if atual.type = TokenType.Variable then
      match all.get? 1 with
      | none => ([], Except.error typeErrLiteral)
      | some keyTok =>
        let next := lineLoop all rest (vset vars keyTok.literal (declRecord all))
        (ActionTag.decl keyTok.literal (declRecord all) :: next.1, next.2)
    else
      lineLoop all rest vars

/-- One line of the interpreter's outer loop. -/
def interpretLine (vars : VMap) (line : List Token) :
    List ActionTag × Except String (List String × VMap) :=
  lineLoop line line vars

/-- The interpreter's outer loop over the lexer's sealed lines, threading
the variable table and concatenating each line's printed output in order. -/
def interpretLines (vars : VMap) : List (List Token) → Except String (List String × VMap)
  | [] => Except.ok ([], vars)
  | l :: ls =>
    match (lineLoop l l vars).2 with
    | Except.error e => Except.error e
    | Except.ok (outs, vars1) =>
      match interpretLines vars1 ls with
      | Except.error e => Except.error e
      | Except.ok (rest, vars2) => Except.ok (outs ++ rest, vars2)

/-- The whole run: lex, then interpret with an initially empty table,
yielding the print-statement output stream.  (Before interpreting, the
source also dumps a fixed debug preamble — the literal text `lines` and the
lexed line structure — to the console; that preamble is not part of the
print-output stream modelled here.) -/
def program (input : String) : Except String (List String) :=
  match tokenize input with
  | Except.error e => Except.error e
  | Except.ok (lns, _) =>
    match interpretLines [] lns with
    | Except.error e => Except.error e
    | Except.ok (outs, _) => Except.ok outs

/-- Mirrors `treeObj['print']`: the expected token-kind template. -/
def treeObjPrint : List TokenType :=
  [TokenType.Print, TokenType.ParentesesE, TokenType.SingleQuote,
   TokenType.Ident, TokenType.SingleQuote, TokenType.ParentesesD, TokenType.EoL]

/-- Mirrors `treeMap`. -/
def treeMap (statement : String) : Option (List TokenType) :=
  if statement = "print" then some treeObjPrint else none

/-- Mirrors `verifyTree`'s index loop: it walks the candidate line's
positions only; an out-of-range template index reads as `undefined` and
fails the comparison. -/
def verifyLoop : List Token → List TokenType → Bool
  | [], _ => true
  | _ :: _, [] => false
  | t :: ts, k :: ks => if t.type = k then verifyLoop ts ks else false

def verifyTree (line : List Token) (statement : String) : Bool :=
  match treeMap statement with
  | some tree => verifyLoop line tree
  | none => false

/-- Boolean kind test, used to state the claims over token lists. -/
def kindIs (tt : TokenType) (t : Token) : Bool :=
  t.type == tt

/-- The two statement-action kinds, for stating dispatch claims. -/
inductive ActKind where
  | decl
  | print
deriving DecidableEq, Repr

def tagKind : ActionTag → ActKind
  | ActionTag.decl _ _ => ActKind.decl
  | ActionTag.print _ => ActKind.print

/-! ### Helper lemmas -/

lemma getD_drop (l : List Char) : ∀ n : Nat, l.getD n nulChar = (l.drop n).headD nulChar := by
  induction l with
  | nil => intro n; cases n <;> rfl
  | cons c cs ih =>
    intro n
    cases n with
    | zero => rfl
    | succ m => simp only [List.getD_cons_succ, List.drop_succ_cons]; exact ih m

lemma num_not_ws {c : Char} (h : isNumber c = true) : isWsChar c = false := by
  simp [isNumber] at h
  simp [isWsChar]
  omega

lemma num_not_letter {c : Char} (h : isNumber c = true) : isLetter c = false := by
  simp [isNumber] at h
  simp [isLetter]
  omega

lemma skipWs_id (s : LexState) (h : isWsChar (curCh s) = false) : skipWhitespace s = s := by
  have hc : (s.input.drop s.position).takeWhile isWsChar = [] := by
    cases hd : s.input.drop s.position with
    | nil => rfl
    | cons c tl =>
      have hcc : curCh s = c := by rw [curCh, getD_drop, hd]; rfl
      rw [List.takeWhile_cons_of_neg]
      rw [← hcc]
      simp [h]
  simp [skipWhitespace, hc]

lemma findAux_at (tt : TokenType) (idx : Nat) :
    ∀ (rest : List Token) (tok : Token),
      findAux tt idx rest idx tok = ((rest.filter (kindIs tt)).head?).getD tok := by
  intro rest
  induction rest with
  | nil => intro tok; rfl
  | cons t ts ih =>
    intro tok
    by_cases h : t.type = tt
    · simp [findAux, h, kindIs, List.filter_cons]
    · simp [findAux, h, kindIs, List.filter_cons, ih]

lemma find_zero (tt : TokenType) (line : List Token) :
    find tt line 0 = ((line.filter (kindIs tt)).head?).getD illegalToken :=
  findAux_at tt 0 line illegalToken

lemma find_zero_of_head (tt : TokenType) (line : List Token) (u : Token)
    (h : (line.filter (kindIs tt)).head? = some u) : find tt line 0 = u := by
  rw [find_zero, h]
  rfl

lemma find_one_of_get (tt : TokenType) :
    ∀ (line : List Token) (u : Token),
      (line.filter (kindIs tt))[1]? = some u → find tt line 1 = u := by
  intro line
  induction line with
  | nil => intro u h; simp at h
  | cons t ts ih =>
    intro u h
    by_cases ht : t.type = tt
    · have hf : (ts.filter (kindIs tt)).head? = some u := by
        have h' := h
        simp [List.filter_cons, kindIs, ht] at h'
        rw [List.head?_eq_getElem?]
        exact h'
      have hstep : findAux tt 1 (t :: ts) 0 illegalToken = findAux tt 1 ts 1 t := by
        simp [findAux, ht]
      show findAux tt 1 (t :: ts) 0 illegalToken = u
      rw [hstep, findAux_at, hf]
      rfl
    · have h' : (ts.filter (kindIs tt))[1]? = some u := by
        simpa [List.filter_cons, kindIs, ht] using h
      show findAux tt 1 (t :: ts) 0 illegalToken = u
      have hstep : findAux tt 1 (t :: ts) 0 illegalToken = findAux tt 1 ts 0 illegalToken := by
        simp [findAux, ht]
      rw [hstep]
      exact ih u h'

lemma find_zero_illegal_iff (tt : TokenType) (htt : tt ≠ TokenType.Illegal)
    (line : List Token) :
    ((find tt line 0).type ≠ TokenType.Illegal) ↔ line.any (kindIs tt) = true := by
  induction line with
  | nil => simp [find, findAux, illegalToken, createToken]
  | cons t ts ih =>
    by_cases ht : t.type = tt
    · have hf : find tt (t :: ts) 0 = t := by simp [find, findAux, ht]
      simp [hf, ht, htt, List.any_cons, kindIs]
    · have hf : find tt (t :: ts) 0 = find tt ts 0 := by simp [find, findAux, ht]
      simp [hf, List.any_cons, kindIs, ht, ih]

lemma lineLoop_skip (all : List Token) :
    ∀ (pre rest : List Token) (vars : VMap),
      (∀ t ∈ pre, t.type ≠ TokenType.Print ∧ t.type ≠ TokenType.Variable) →
      lineLoop all (pre ++ rest) vars = lineLoop all rest vars := by
  intro pre
  induction pre with
  | nil => intro rest vars _; rfl
  | cons t ts ih =>
    intro rest vars h
    have h1 := h t (by simp)
    show lineLoop all (t :: (ts ++ rest)) vars = _
    rw [show lineLoop all (t :: (ts ++ rest)) vars = lineLoop all (ts ++ rest) vars by
      simp [lineLoop, h1.1, h1.2]]
    exact ih rest vars (fun u hu => h u (by simp [hu]))

lemma lineLoop_len (all : List Token) :
    ∀ (rest : List Token) (vars : VMap) (outs : List String) (vars' : VMap),
      (lineLoop all rest vars).2 = Except.ok (outs, vars') →
      outs.length = (if rest.any (kindIs TokenType.Print) then 1 else 0) := by
  intro rest
  induction rest with
  | nil =>
    intro vars outs vars' h
    simp [lineLoop] at h
    simp [h.1.symm]
  | cons t ts ih =>
    intro vars outs vars' h
    by_cases hp : t.type = TokenType.Print
    · have hany : (t :: ts).any (kindIs TokenType.Print) = true := by
        simp [List.any_cons, kindIs, hp]
      rw [hany]
      by_cases hv : hasVariable vars all = true
      · cases hg : vget vars (find TokenType.Ident all 0).literal with
        | none => simp [lineLoop, hp, hv, hg] at h
        | some v =>
          cases hvt : v.type with
          | number =>
            simp [lineLoop, hp, hv, hg, hvt] at h
            simp [h.1.symm]
          | string =>
            simp [lineLoop, hp, hv, hg, hvt] at h
            simp [h.1.symm]
      · simp [lineLoop, hp, hv] at h
        simp [h.1.symm]
    · by_cases hvr : t.type = TokenType.Variable
      · cases hk : all[1]? with
        | none => simp [lineLoop, hp, hvr, hk] at h
        | some keyTok =>
          have h2 : (lineLoop all ts (vset vars keyTok.literal (declRecord all))).2
              = Except.ok (outs, vars') := by
            simpa [lineLoop, hp, hvr, hk] using h
          have := ih _ _ _ h2
          rw [this]
          simp [List.any_cons, kindIs, hp]
      · have hstep : lineLoop all (t :: ts) vars = lineLoop all ts vars := by
          simp [lineLoop, hp, hvr]
        rw [hstep] at h
        have := ih _ _ _ h
        rw [this]
        simp [List.any_cons, kindIs, hp]

lemma interpretLines_len :
    ∀ (ls : List (List Token)) (vars : VMap) (outs : List String) (vars' : VMap),
      interpretLines vars ls = Except.ok (outs, vars') →
      outs.length = ls.countP (fun l => l.any (kindIs TokenType.Print)) := by
  intro ls
  induction ls with
  | nil =>
    intro vars outs vars' h
    simp [interpretLines] at h
    simp [h.1.symm]
  | cons l ls ih =>
    intro vars outs vars' h
    cases he : (lineLoop l l vars).2 with
    | error e => simp [interpretLines, he] at h
    | ok p =>
      obtain ⟨o, v1⟩ := p
      cases hr : interpretLines v1 ls with
      | error e => simp [interpretLines, he, hr] at h
      | ok q =>
        obtain ⟨r, v2⟩ := q
        simp [interpretLines, he, hr] at h
        have h1 := lineLoop_len l l vars o v1 he
        have h2 := ih v1 r v2 hr
        rw [← h.1, List.length_append, h1, h2, List.countP_cons]
        omega

lemma lineLoop_trace (all : List Token) :
    ∀ (rest : List Token) (vars : VMap) (outs : List String) (vars' : VMap),
      (lineLoop all rest vars).2 = Except.ok (outs, vars') →
      (lineLoop all rest vars).1.map tagKind =
        List.replicate
            ((rest.takeWhile (fun t => !(kindIs TokenType.Print t))).countP
              (kindIs TokenType.Variable)) ActKind.decl
          ++ (if rest.any (kindIs TokenType.Print) then [ActKind.print] else []) := by
  intro rest
  induction rest with
  | nil => intro vars outs vars' _; simp [lineLoop]
  | cons t ts ih =>
    intro vars outs vars' h
    by_cases hp : t.type = TokenType.Print
    · have htw : (t :: ts).takeWhile (fun t => !(kindIs TokenType.Print t)) = [] := by
        simp [List.takeWhile_cons, kindIs, hp]
      have hany : (t :: ts).any (kindIs TokenType.Print) = true := by
        simp [List.any_cons, kindIs, hp]
      rw [htw, hany]
      by_cases hv : hasVariable vars all = true
      · cases hg : vget vars (find TokenType.Ident all 0).literal with
        | none => simp [lineLoop, hp, hv, hg] at h
        | some v =>
          cases hvt : v.type with
          | number => simp [lineLoop, hp, hv, hg, hvt, tagKind]
          | string => simp [lineLoop, hp, hv, hg, hvt, tagKind]
      · simp [lineLoop, hp, hv, tagKind]
    · by_cases hvr : t.type = TokenType.Variable
      · cases hk : all[1]? with
        | none => simp [lineLoop, hp, hvr, hk] at h
        | some keyTok =>
          have h2 : (lineLoop all ts (vset vars keyTok.literal (declRecord all))).2
              = Except.ok (outs, vars') := by
            simpa [lineLoop, hp, hvr, hk] using h
          have htr := ih _ _ _ h2
          have htw : (t :: ts).takeWhile (fun t => !(kindIs TokenType.Print t)) =
              t :: ts.takeWhile (fun t => !(kindIs TokenType.Print t)) := by
            simp [List.takeWhile_cons, kindIs, hp]
          rw [htw]
          have hcnt : (t :: ts.takeWhile (fun t => !(kindIs TokenType.Print t))).countP
              (kindIs TokenType.Variable)
              = (ts.takeWhile (fun t => !(kindIs TokenType.Print t))).countP
                  (kindIs TokenType.Variable) + 1 := by
            simp [List.countP_cons, kindIs, hvr]
          rw [hcnt]
          have hmap : (lineLoop all (t :: ts) vars).1.map tagKind =
              ActKind.decl ::
                ((lineLoop all ts (vset vars keyTok.literal (declRecord all))).1.map tagKind) := by
            simp [lineLoop, hp, hvr, hk, tagKind]
          rw [hmap, htr]
          simp [List.replicate_succ, List.any_cons, kindIs, hp]
      · have hstep : lineLoop all (t :: ts) vars = lineLoop all ts vars := by
          simp [lineLoop, hp, hvr]
        rw [hstep] at h ⊢
        have := ih _ _ _ h
        rw [this]
        simp [List.takeWhile_cons, List.countP_cons, List.any_cons, kindIs, hp, hvr]

lemma lexLoop_raw :
    ∀ (fuel : Nat) (s : LexState) (line : List Token) (lns : List (List Token))
      (toks : List Token) (lns' : List (List Token)) (toks' : List Token),
      lexLoop fuel s line lns toks = Except.ok (lns', toks') →
      ∃ ts, rawLoop fuel s = Except.ok ts ∧ lns' = lns ++ splitGo ts line := by
  intro fuel
  induction fuel with
  | zero => intro s line lns toks lns' toks' h; simp [lexLoop] at h
  | succ fuel ih =>
    intro s line lns toks lns' toks' h
    rcases hgt : getNextToken s with ⟨tok, s1⟩
    by_cases h1 : tok.type = TokenType.EoL
    · have h' : lexLoop fuel { s1 with loc := s1.loc + 1 } [] (lns ++ [line]) toks
          = Except.ok (lns', toks') := by
        simpa [lexLoop, hgt, h1] using h
      obtain ⟨ts, hraw, hlns⟩ := ih _ _ _ _ _ _ h'
      refine ⟨tok :: ts, ?_, ?_⟩
      · simp [rawLoop, hgt, h1, hraw, Except.map]
      · rw [hlns, splitGo, if_pos h1]
        simp
    · by_cases h2 : tok.type = TokenType.Illegal
      · simp [lexLoop, hgt, h1, h2] at h
      · by_cases h3 : tok.type = TokenType.Eof
        · have h' : lns' = lns ∧ toks' = toks := by
            have := h
            simp [lexLoop, hgt, h1, h2, h3] at this
            exact ⟨this.1.symm, this.2.symm⟩
          refine ⟨[], ?_, ?_⟩
          · simp [rawLoop, hgt, h1, h2, h3]
          · rw [h'.1]; simp [splitGo]
        · have h' : lexLoop fuel s1 (line ++ [tok]) lns (toks ++ [tok])
              = Except.ok (lns', toks') := by
            simpa [lexLoop, hgt, h1, h2, h3] using h
          obtain ⟨ts, hraw, hlns⟩ := ih _ _ _ _ _ _ h'
          refine ⟨tok :: ts, ?_, ?_⟩
          · simp [rawLoop, hgt, h1, h2, h3, hraw, Except.map]
          · rw [hlns, splitGo, if_neg h1]

lemma splitGo_no_eol :
    ∀ (ts cur : List Token), (∀ t ∈ cur, t.type ≠ TokenType.EoL) →
      ∀ l ∈ splitGo ts cur, ∀ t ∈ l, t.type ≠ TokenType.EoL := by
  intro ts
  induction ts with
  | nil => intro cur _ l hl; simp [splitGo] at hl
  | cons t ts ih =>
    intro cur hcur l hl
    by_cases h1 : t.type = TokenType.EoL
    · rw [splitGo, if_pos h1] at hl
      rcases List.mem_cons.mp hl with h | h
      · rw [h]; exact hcur
      · exact ih [] (by simp) l h
    · rw [splitGo, if_neg h1] at hl
      refine ih (cur ++ [t]) ?_ l hl
      intro u hu
      rcases List.mem_append.mp hu with h | h
      · exact hcur u h
      · rw [List.mem_singleton.mp h]; exact h1

lemma splitGo_length :
    ∀ (ts cur : List Token), (splitGo ts cur).length = ts.countP (kindIs TokenType.EoL) := by
  intro ts
  induction ts with
  | nil => intro cur; simp [splitGo]
  | cons t ts ih =>
    intro cur
    by_cases h1 : t.type = TokenType.EoL
    · rw [splitGo, if_pos h1]
      simp [List.countP_cons, kindIs, h1, ih]
    · rw [splitGo, if_neg h1]
      simp [List.countP_cons, kindIs, h1, ih]

lemma verifyLoop_iff :
    ∀ (line : List Token) (tree : List TokenType),
      verifyLoop line tree = true ↔
        (line.length ≤ tree.length ∧ ∀ p ∈ line.zip tree, p.1.type = p.2) := by
  intro line
  induction line with
  | nil => intro tree; simp [verifyLoop]
  | cons t ts ih =>
    intro tree
    cases tree with
    | nil => simp [verifyLoop]
    | cons k ks =>
      by_cases h : t.type = k
      · simp [verifyLoop, h, ih, Nat.succ_le_succ_iff]
      · simp [verifyLoop, h]

lemma bitLenAux_le : ∀ (fuel n k : Nat), n < 2 ^ k → k ≤ fuel → bitLenAux fuel n ≤ k := by
  intro fuel
  induction fuel with
  | zero => intro n k _ _; simp [bitLenAux]
  | succ f ih =>
    intro n k h hk
    by_cases hn : n = 0
    · simp [bitLenAux, hn]
    · have hk1 : 1 ≤ k := by
        by_contra hc
        have hk0 : k = 0 := by omega
        rw [hk0, pow_zero] at h
        omega
      have h2 : 2 ^ k = 2 ^ (k - 1) * 2 := by
        rw [← pow_succ]
        congr 1
        omega
      have hdiv : n / 2 < 2 ^ (k - 1) := by
        rw [h2] at h
        omega
      have := ih (n / 2) (k - 1) hdiv (by omega)
      simp only [bitLenAux, hn, if_neg, reduceIte]
      omega

lemma roundMag_small {n : Nat} (h : n < 2 ^ 53) : roundMag n = n := by
  have hb : bitLen n ≤ 53 := bitLenAux_le 1100 n 53 h (by omega)
  simp [roundMag, hb]

lemma toJsDouble_small {n : Nat} (h : n < 2 ^ 53) :
    toJsDouble false n = JsNum.int false n := by
  have h1 : (2 : Nat) ^ 53 ≤ 2 ^ 970 := Nat.pow_le_pow_right (by omega) (by omega)
  have h2 : (2 : Nat) ^ 970 * 2 ≤ 2 ^ 1024 := by
    have : (2 : Nat) ^ 970 * 2 = 2 ^ 971 := by rw [← pow_succ]
    rw [this]
    exact Nat.pow_le_pow_right (by omega) (by omega)
  have hlt : ¬ (2 ^ 1024 - 2 ^ 970 ≤ n) := by omega
  simp [toJsDouble, hlt, roundMag_small h]

lemma numRender_digits (s : String) (h0 : s.data ≠ [])
    (hd : ∀ c ∈ s.data, isNumber c = true)
    (h53 : digitsVal s.data < 2 ^ 53) :
    numRender s = Nat.repr (digitsVal s.data) := by
  cases hsd : s.data with
  | nil => exact absurd hsd h0
  | cons c cs =>
    have hc : isNumber c = true := hd c (by rw [hsd]; simp)
    have hc' : 48 ≤ c.toNat ∧ c.toNat ≤ 57 := by simpa [isNumber] using hc
    have h45 : (c.toNat == 45) = false := by simp; omega
    have h43 : (c.toNat == 43) = false := by simp; omega
    have htw : (c :: cs).takeWhile isNumber = c :: cs := by
      rw [List.takeWhile_eq_self_iff]
      intro a ha
      exact hd a (by rw [hsd]; exact ha)
    have h53' : digitsVal (c :: cs) < 2 ^ 53 := by rw [← hsd]; exact h53
    have hto : toJsDouble false (digitsVal (c :: cs))
        = JsNum.int false (digitsVal (c :: cs)) := toJsDouble_small h53'
    have hfast : digitsVal (c :: cs) < 9007199254740992 := by
      have hp : (2 : Nat) ^ 53 = 9007199254740992 := by norm_num
      omega
    have hns : natToStringJs (digitsVal (c :: cs)) = Nat.repr (digitsVal (c :: cs)) := by
      simp [natToStringJs, hfast]
    simp [numRender, jsParseInt, hsd, h45, h43, htw, hto, hns]


/-! ### Claim theorems -/

/-- Claim C1 (corrected): for every input that lexes without an Illegal
token and interprets without a runtime error, the print-output stream has
exactly one line per lexed line containing a `PrintKeyword` token, in line
order — no grammar-shape validation gates the count (besides this stream
the source dumps a fixed debug preamble before interpreting). -/
theorem C1_theorem :
    ∀ (input : String) (outs : List String),
      program input = Except.ok outs →
      ∃ lns toks, tokenize input = Except.ok (lns, toks)
        ∧ outs.length = lns.countP (fun l => l.any (kindIs TokenType.Print)) := by
  intro input outs h
  cases ht : tokenize input with
  | error e => simp [program, ht] at h
  | ok p =>
    obtain ⟨lns, toks⟩ := p
    cases hi : interpretLines [] lns with
    | error e => simp [program, ht, hi] at h
    | ok q =>
      obtain ⟨o, v⟩ := q
      have ho : o = outs := by simpa [program, ht, hi] using h
      refine ⟨lns, toks, rfl, ?_⟩
      rw [← ho]
      exact interpretLines_len lns [] o v hi

/-- Claim C1 witness: the theorem applied to the input `print x!`, whose
run prints exactly one line. -/
theorem C1_witness :
    ∃ lns toks, tokenize "print x!" = Except.ok (lns, toks)
      ∧ (["x"] : List String).length
          = lns.countP (fun l => l.any (kindIs TokenType.Print)) :=
  C1_theorem "print x!" ["x"] rfl

/-- Claim C1 counterexample: the input `print x!` produces one output line
although zero of its lines match the recognized `print` token shape, so
"one line per print statement line whose token shape is recognized" fails
as stated. -/
theorem C1_counterexample :
    program "print x!" = Except.ok ["x"]
    ∧ tokenize "print x!" = Except.ok
        ([[createToken TokenType.Print "print", createToken TokenType.Ident "x"]],
         [createToken TokenType.Print "print", createToken TokenType.Ident "x"])
    ∧ verifyTree [createToken TokenType.Print "print",
        createToken TokenType.Ident "x"] "print" = false
    ∧ ([[createToken TokenType.Print "print",
        createToken TokenType.Ident "x"]].countP (fun l => verifyTree l "print")) = 0
    ∧ (["x"] : List String).length = 1 := by
  exact ⟨rfl, rfl, rfl, rfl, rfl⟩

/-- Claim C2 (corrected): per line, the executed actions are one
declaration for every `VarKeyword` token before the first `PrintKeyword`
(a declaration does not stop the scan), followed by at most one print
action exactly when the line contains a `PrintKeyword` (the first
`PrintKeyword` stops the scan) — not "exactly one action per line". -/
theorem C2_theorem :
    ∀ (vars : VMap) (line : List Token) (outs : List String) (vars' : VMap),
      (interpretLine vars line).2 = Except.ok (outs, vars') →
      (interpretLine vars line).1.map tagKind =
        List.replicate
            ((line.takeWhile (fun t => !(kindIs TokenType.Print t))).countP
              (kindIs TokenType.Variable)) ActKind.decl
          ++ (if line.any (kindIs TokenType.Print) then [ActKind.print] else []) := by
  intro vars line outs vars' h
  exact lineLoop_trace line line vars outs vars' h

/-- Claim C2 witness: the theorem applied to the lexed line of
`var x = 1 print(x)!`, on which a declaration and then a print execute. -/
theorem C2_witness :
    (interpretLine [] [createToken TokenType.Variable "var", createToken TokenType.Ident "x",
      createToken TokenType.AssignOrEqual "=", createToken TokenType.Int "1",
      createToken TokenType.Print "print", createToken TokenType.ParentesesE "(",
      createToken TokenType.Ident "x", createToken TokenType.ParentesesD ")"]).1.map tagKind
      = [ActKind.decl, ActKind.print] := by
  have h := C2_theorem [] [createToken TokenType.Variable "var", createToken TokenType.Ident "x",
    createToken TokenType.AssignOrEqual "=", createToken TokenType.Int "1",
    createToken TokenType.Print "print", createToken TokenType.ParentesesE "(",
    createToken TokenType.Ident "x", createToken TokenType.ParentesesD ")"]
    ["1"] [("x", IVariable.mk "var var" VType.number "1")] rfl
  exact h.trans (by decide)

/-- Claim C2 counterexample: the single lexed line of
`var x = 1 print(x)!` executes two actions — a declaration and a print —
refuting "exactly one action executes per line". -/
theorem C2_counterexample :
    tokenize "var x = 1 print(x)!" = Except.ok
      ([[createToken TokenType.Variable "var", createToken TokenType.Ident "x",
         createToken TokenType.AssignOrEqual "=", createToken TokenType.Int "1",
         createToken TokenType.Print "print", createToken TokenType.ParentesesE "(",
         createToken TokenType.Ident "x", createToken TokenType.ParentesesD ")"]],
       [createToken TokenType.Variable "var", createToken TokenType.Ident "x",
        createToken TokenType.AssignOrEqual "=", createToken TokenType.Int "1",
        createToken TokenType.Print "print", createToken TokenType.ParentesesE "(",
        createToken TokenType.Ident "x", createToken TokenType.ParentesesD ")"])
    ∧ (interpretLine [] [createToken TokenType.Variable "var", createToken TokenType.Ident "x",
        createToken TokenType.AssignOrEqual "=", createToken TokenType.Int "1",
        createToken TokenType.Print "print", createToken TokenType.ParentesesE "(",
        createToken TokenType.Ident "x", createToken TokenType.ParentesesD ")"]).1
        = [ActionTag.decl "x" (IVariable.mk "var var" VType.number "1"), ActionTag.print "1"]
    ∧ ([ActionTag.decl "x" (IVariable.mk "var var" VType.number "1"),
        ActionTag.print "1"] : List ActionTag).length ≠ 1 := by
  exact ⟨rfl, rfl, by decide⟩



/-- Claim C3 (corrected): on a line dispatched as a print statement, if some
token literal matches a table key, the emitted output is obtained from the
stored value of the variable keyed by the first `Identifier`-kind token's
literal — for `valueType` number it is the ECMA rendering of the double
`parseInt` produces, which equals the stored value formatted as a decimal
integer whenever the stored digit run denotes an integer below `2 ^ 53`
(beyond that, IEEE-754 rounding makes the printed number differ from the
stored value); for `valueType` string it is the raw stored string; if no
token literal matches a key, the output is the first `Identifier`-kind
token's literal verbatim. -/
theorem C3_theorem :
    ∀ (vars : VMap) (pre post : List Token) (p ft : Token),
      p.type = TokenType.Print →
      (∀ t ∈ pre, t.type ≠ TokenType.Print ∧ t.type ≠ TokenType.Variable) →
      ((pre ++ p :: post).filter (kindIs TokenType.Ident)).head? = some ft →
      ((∀ v : IVariable,
          hasVariable vars (pre ++ p :: post) = true →
          vget vars ft.literal = some v →
          ((v.type = VType.string →
              (interpretLine vars (pre ++ p :: post)).2 = Except.ok ([v.value], vars))
            ∧ (v.type = VType.number →
                (interpretLine vars (pre ++ p :: post)).2
                  = Except.ok ([numRender v.value], vars))
            ∧ (v.type = VType.number → v.value.data ≠ [] →
                (∀ c ∈ v.value.data, isNumber c = true) →
                digitsVal v.value.data < 2 ^ 53 →
                (interpretLine vars (pre ++ p :: post)).2
                  = Except.ok ([Nat.repr (digitsVal v.value.data)], vars))))
        ∧ (hasVariable vars (pre ++ p :: post) = false →
            (interpretLine vars (pre ++ p :: post)).2
              = Except.ok ([ft.literal], vars))) := by
  intro vars pre post p ft hp hpre hft
  have hskip : lineLoop (pre ++ p :: post) (pre ++ p :: post) vars
      = lineLoop (pre ++ p :: post) (p :: post) vars :=
    lineLoop_skip _ pre (p :: post) vars hpre
  have hfind : find TokenType.Ident (pre ++ p :: post) 0 = ft :=
    find_zero_of_head _ _ _ hft
  constructor
  · intro v hv hg
    refine ⟨?_, ?_, ?_⟩
    · intro hstr
      simp only [interpretLine]
      rw [hskip]
      simp [lineLoop, hp, hv, hfind, hg, hstr]
    · intro hnum
      simp only [interpretLine]
      rw [hskip]
      simp [lineLoop, hp, hv, hfind, hg, hnum]
    · intro hnum hne hdig h53
      have hnr : numRender v.value = Nat.repr (digitsVal v.value.data) :=
        numRender_digits v.value hne hdig h53
      simp only [interpretLine]
      rw [hskip]
      simp [lineLoop, hp, hv, hfind, hg, hnum, hnr]
  · intro hv
    simp only [interpretLine]
    rw [hskip]
    simp [lineLoop, hp, hv, hfind]

/-- Claim C3 witness: the theorem applied to the lexed line of `print(x)!`
with the table holding `x` as the number `1` (below `2 ^ 53`): the run
prints `1`. -/
theorem C3_witness :
    (interpretLine [("x", IVariable.mk "var var" VType.number "1")]
      [createToken TokenType.Print "print", createToken TokenType.ParentesesE "(",
       createToken TokenType.Ident "x", createToken TokenType.ParentesesD ")"]).2
      = Except.ok (["1"], [("x", IVariable.mk "var var" VType.number "1")]) := by
  have h := C3_theorem [("x", IVariable.mk "var var" VType.number "1")] []
    [createToken TokenType.ParentesesE "(", createToken TokenType.Ident "x",
     createToken TokenType.ParentesesD ")"]
    (createToken TokenType.Print "print") (createToken TokenType.Ident "x")
    rfl (by simp) rfl
  exact ((h.1 (IVariable.mk "var var" VType.number "1") rfl rfl).2.2 rfl (by decide)
    (by decide) (by decide)).trans (by rfl)

/-- Claim C3 counterexample: the stored digit run `9007199254740993` is
`2 ^ 53 + 1`; `parseInt` rounds it to the double `9007199254740992`, so the
program prints a number different from the stored value — refuting "the
emitted output is the stored value ... formatted as a decimal integer" as
stated. -/
theorem C3_counterexample :
    program "var x = 9007199254740993!print(x)!"
      = Except.ok ["9007199254740992"]
    ∧ ("9007199254740992" : String) ≠ "9007199254740993" := by
  exact ⟨rfl, by decide⟩

/-- Claim C4 (confirmed): on a line dispatched as a variable declaration, a
quote token anywhere in the line makes it a string declaration storing the
second `Identifier` token's literal, no quote makes it a number declaration
storing the first `Integer` token's literal, and in both cases the key is
the literal of the token at line position 1, whatever its kind. -/
theorem C4_theorem :
    ∀ (vars : VMap) (pre post : List Token) (vtok keyTok : Token),
      vtok.type = TokenType.Variable →
      (∀ t ∈ pre, t.type ≠ TokenType.Print ∧ t.type ≠ TokenType.Variable) →
      (pre ++ vtok :: post)[1]? = some keyTok →
      ((∀ s2 : Token,
          ((pre ++ vtok :: post).any (kindIs TokenType.SingleQuote)
            || (pre ++ vtok :: post).any (kindIs TokenType.DoubleQuote)) = true →
          ((pre ++ vtok :: post).filter (kindIs TokenType.Ident))[1]? = some s2 →
          (interpretLine vars (pre ++ vtok :: post)).1.head?
            = some (ActionTag.decl keyTok.literal
                (IVariable.mk "var var" VType.string s2.literal)))
        ∧ (∀ n1 : Token,
            ((pre ++ vtok :: post).any (kindIs TokenType.SingleQuote)
              || (pre ++ vtok :: post).any (kindIs TokenType.DoubleQuote)) = false →
            ((pre ++ vtok :: post).filter (kindIs TokenType.Int)).head? = some n1 →
            (interpretLine vars (pre ++ vtok :: post)).1.head?
              = some (ActionTag.decl keyTok.literal
                  (IVariable.mk "var var" VType.number n1.literal)))) := by
  intro vars pre post vtok keyTok hv hpre hk
  have hskip : lineLoop (pre ++ vtok :: post) (pre ++ vtok :: post) vars
      = lineLoop (pre ++ vtok :: post) (vtok :: post) vars :=
    lineLoop_skip _ pre (vtok :: post) vars hpre
  have hnp : ¬ vtok.type = TokenType.Print := by simp [hv]
  constructor
  · intro s2 hq hs2
    have hfind1 : find TokenType.Ident (pre ++ vtok :: post) 1 = s2 :=
      find_one_of_get _ _ _ hs2
    have hrec : declRecord (pre ++ vtok :: post)
        = IVariable.mk "var var" VType.string s2.literal := by
      unfold declRecord
      have hcond : (find TokenType.SingleQuote (pre ++ vtok :: post) 0).type ≠ TokenType.Illegal
          ∨ (find TokenType.DoubleQuote (pre ++ vtok :: post) 0).type ≠ TokenType.Illegal := by
        have hq2 : (pre ++ vtok :: post).any (kindIs TokenType.SingleQuote) = true
            ∨ (pre ++ vtok :: post).any (kindIs TokenType.DoubleQuote) = true := by
          simpa using hq
        rcases hq2 with hq1 | hq1
        · exact Or.inl ((find_zero_illegal_iff TokenType.SingleQuote (by decide) _).mpr hq1)
        · exact Or.inr ((find_zero_illegal_iff TokenType.DoubleQuote (by decide) _).mpr hq1)
      rw [if_pos hcond, hfind1]
    simp only [interpretLine]
    rw [hskip]
    simp [lineLoop, hnp, hv, hk, hrec]
  · intro n1 hq hn1
    have hfind0 : find TokenType.Int (pre ++ vtok :: post) 0 = n1 :=
      find_zero_of_head _ _ _ hn1
    have hrec : declRecord (pre ++ vtok :: post)
        = IVariable.mk "var var" VType.number n1.literal := by
      unfold declRecord
      have hq' : (pre ++ vtok :: post).any (kindIs TokenType.SingleQuote) = false
          ∧ (pre ++ vtok :: post).any (kindIs TokenType.DoubleQuote) = false := by
        simpa [Bool.or_eq_false_iff] using hq
      have hcond : ¬ ((find TokenType.SingleQuote (pre ++ vtok :: post) 0).type ≠ TokenType.Illegal
          ∨ (find TokenType.DoubleQuote (pre ++ vtok :: post) 0).type ≠ TokenType.Illegal) := by
        rw [find_zero_illegal_iff TokenType.SingleQuote (by decide),
          find_zero_illegal_iff TokenType.DoubleQuote (by decide)]
        simp [hq'.1, hq'.2]
      rw [if_neg hcond, hfind0]
    simp only [interpretLine]
    rw [hskip]
    simp [lineLoop, hnp, hv, hk, hrec]

/-- Claim C4 witness: the theorem applied to the lexed line of
`var x = 'hi'!`: the stored record is the string `hi` keyed by `x`. -/
theorem C4_witness :
    (interpretLine [] [createToken TokenType.Variable "var", createToken TokenType.Ident "x",
      createToken TokenType.AssignOrEqual "=",
      createToken TokenType.SingleQuote (String.singleton (Char.ofNat 39)),
      createToken TokenType.Ident "hi",
      createToken TokenType.SingleQuote (String.singleton (Char.ofNat 39))]).1.head?
      = some (ActionTag.decl "x" (IVariable.mk "var var" VType.string "hi")) := by
  have h := C4_theorem [] [] [createToken TokenType.Ident "x",
    createToken TokenType.AssignOrEqual "=",
    createToken TokenType.SingleQuote (String.singleton (Char.ofNat 39)),
    createToken TokenType.Ident "hi",
    createToken TokenType.SingleQuote (String.singleton (Char.ofNat 39))]
    (createToken TokenType.Variable "var") (createToken TokenType.Ident "x")
    rfl (by simp) rfl
  exact (h.1 (createToken TokenType.Ident "hi") (by decide) rfl).trans (by rfl)



/-- Claim C5 (confirmed): a digit run at the cursor lexes to a single token
whose literal is the maximal digit run, whose kind is `Identifier` when the
previously emitted token was a quote and `Integer` otherwise, and the
cursor advances past the whole run; in particular the quoted digit run in
`'123'` lexes to an `Identifier` token with literal `123`. -/
theorem C5_theorem :
    (∀ s : LexState, isNumber (curCh s) = true →
      (getNextToken s).1.literal = String.mk ((s.input.drop s.position).takeWhile isNumber)
      ∧ (getNextToken s).1.type =
          (if s.lastToken.type = TokenType.SingleQuote
              ∨ s.lastToken.type = TokenType.DoubleQuote then TokenType.Ident
           else TokenType.Int)
      ∧ (getNextToken s).2.position
          = s.position + ((s.input.drop s.position).takeWhile isNumber).length)
    ∧ tokenize (String.mk [Char.ofNat 39, Char.ofNat 49, Char.ofNat 50,
        Char.ofNat 51, Char.ofNat 39])
        = Except.ok ([],
            [createToken TokenType.SingleQuote (String.singleton (Char.ofNat 39)),
             createToken TokenType.Ident "123",
             createToken TokenType.SingleQuote (String.singleton (Char.ofNat 39))]) := by
  constructor
  · intro s h
    have hws : isWsChar (curCh s) = false := num_not_ws h
    have hsk : skipWhitespace s = s := skipWs_id s hws
    have hlet : isLetter (curCh s) = false := num_not_letter h
    by_cases hq : s.lastToken.type = TokenType.SingleQuote
        ∨ s.lastToken.type = TokenType.DoubleQuote
    · refine ⟨?_, ?_, ?_⟩ <;> simp [getNextToken, hsk, hlet, h, readWhile, createToken, hq]
    · refine ⟨?_, ?_, ?_⟩ <;> simp [getNextToken, hsk, hlet, h, readWhile, createToken, hq]
  · rfl

/-- Claim C5 witness: the theorem applied to a state whose cursor sits on
the digit run `123` right after a single-quote token was emitted: the run
lexes to one `Identifier` token with literal `123`. -/
theorem C5_witness :
    (getNextToken (LexState.mk [Char.ofNat 49, Char.ofNat 50, Char.ofNat 51] 0
        (createToken TokenType.SingleQuote (String.singleton (Char.ofNat 39))) 0)).1.literal
        = "123"
    ∧ (getNextToken (LexState.mk [Char.ofNat 49, Char.ofNat 50, Char.ofNat 51] 0
        (createToken TokenType.SingleQuote (String.singleton (Char.ofNat 39))) 0)).1.type
        = TokenType.Ident
    ∧ (getNextToken (LexState.mk [Char.ofNat 49, Char.ofNat 50, Char.ofNat 51] 0
        (createToken TokenType.SingleQuote (String.singleton (Char.ofNat 39))) 0)).2.position
        = 3 := by
  have h := C5_theorem.1 (LexState.mk [Char.ofNat 49, Char.ofNat 50, Char.ofNat 51] 0
    (createToken TokenType.SingleQuote (String.singleton (Char.ofNat 39))) 0) rfl
  exact ⟨h.1.trans (by rfl), (h.2.1).trans (by rfl), (h.2.2).trans (by rfl)⟩

/-- Claim C6 (confirmed): when the lexing loop reaches a character that is
not whitespace, not a recognized single-character token, not a letter and
not a digit, it aborts at once with the error message naming that character
and the current 0-based line count, and a lexer error makes the whole run
error with no output lines. -/
theorem C6_theorem :
    (∀ (fuel : Nat) (s : LexState) (line : List Token) (lns : List (List Token))
        (toks : List Token),
      isWsChar (curCh s) = false → isLetter (curCh s) = false →
      isNumber (curCh s) = false → switchTok (curCh s) = none →
      lexLoop (fuel + 1) s line lns toks
        = Except.error (illegalMsg (String.singleton (curCh s)) s.loc))
    ∧ (∀ (input e : String),
        tokenize input = Except.error e → program input = Except.error e) := by
  constructor
  · intro fuel s line lns toks hws hlet hnum hsw
    have hsk : skipWhitespace s = s := skipWs_id s hws
    have hgt : getNextToken s
        = (createToken TokenType.Illegal (String.singleton (curCh s)), s) := by
      simp [getNextToken, hsk, hlet, hnum, hsw]
    simp [lexLoop, hgt, createToken, illegalMsg]
  · intro input e h
    simp [program, h]

/-- Claim C6 witness: the theorem applied to the input `@`: the run aborts
with the message naming `@` and line 0, and produces no output. -/
theorem C6_witness :
    lexLoop 3 (initState "@") [] [] [] = Except.error "Illegal token @ at line 0"
    ∧ program "@" = Except.error "Illegal token @ at line 0" := by
  have h1 := C6_theorem.1 2 (initState "@") [] [] [] rfl rfl rfl rfl
  have h2 : tokenize "@" = Except.error "Illegal token @ at line 0" := h1
  exact ⟨h1, C6_theorem.2 "@" _ h2⟩

/-- Claim C7 (confirmed): on a successful lex, the sealed lines are exactly
the emitted token sequence split on terminator tokens — no `StatementEnd`
token appears inside any sealed line, there is exactly one sealed line per
terminator token, and a trailing unterminated token group is discarded. -/
theorem C7_theorem :
    ∀ (input : String) (lns : List (List Token)) (toks : List Token),
      tokenize input = Except.ok (lns, toks) →
      ∃ ts : List Token, rawTokens input = Except.ok ts
        ∧ lns = splitOnBang ts
        ∧ (∀ l ∈ lns, ∀ t ∈ l, t.type ≠ TokenType.EoL)
        ∧ lns.length = ts.countP (kindIs TokenType.EoL) := by
  intro input lns toks h
  obtain ⟨ts, hraw, hlns⟩ := lexLoop_raw _ _ _ _ _ _ _ h
  refine ⟨ts, hraw, ?_, ?_, ?_⟩
  · simpa [splitOnBang] using hlns
  · rw [hlns]
    simpa using splitGo_no_eol ts [] (by simp)
  · rw [hlns]
    simpa using splitGo_length ts []

/-- Claim C7 witness: the theorem applied to `var x = 1!print`, whose
trailing unterminated `print` token is sealed into no line. -/
theorem C7_witness :
    ∃ ts : List Token, rawTokens "var x = 1!print" = Except.ok ts
      ∧ [[createToken TokenType.Variable "var", createToken TokenType.Ident "x",
          createToken TokenType.AssignOrEqual "=", createToken TokenType.Int "1"]]
          = splitOnBang ts
      ∧ (∀ l ∈ [[createToken TokenType.Variable "var", createToken TokenType.Ident "x",
          createToken TokenType.AssignOrEqual "=", createToken TokenType.Int "1"]],
          ∀ t ∈ l, t.type ≠ TokenType.EoL)
      ∧ ([[createToken TokenType.Variable "var", createToken TokenType.Ident "x",
          createToken TokenType.AssignOrEqual "=",
          createToken TokenType.Int "1"]] : List (List Token)).length
          = ts.countP (kindIs TokenType.EoL) :=
  C7_theorem "var x = 1!print"
    [[createToken TokenType.Variable "var", createToken TokenType.Ident "x",
      createToken TokenType.AssignOrEqual "=", createToken TokenType.Int "1"]]
    [createToken TokenType.Variable "var", createToken TokenType.Ident "x",
     createToken TokenType.AssignOrEqual "=", createToken TokenType.Int "1",
     createToken TokenType.Print "print"] rfl

/-- Claim C8 (corrected): the grammar table maps `print` to the seven-kind
sequence `PrintKeyword, OpenParen, SingleQuote, Identifier, SingleQuote,
CloseParen, StatementEnd` (the claim omits the trailing terminator kind),
and the checker accepts a line exactly when every line position matches the
corresponding template position. -/
theorem C8_theorem :
    treeMap "print" = some [TokenType.Print, TokenType.ParentesesE, TokenType.SingleQuote,
      TokenType.Ident, TokenType.SingleQuote, TokenType.ParentesesD, TokenType.EoL]
    ∧ ∀ line : List Token,
        verifyTree line "print" = true ↔
          (line.length ≤ treeObjPrint.length ∧ ∀ p ∈ line.zip treeObjPrint, p.1.type = p.2) := by
  constructor
  · rfl
  · intro line
    exact verifyLoop_iff line treeObjPrint

/-- Claim C8 witness: the theorem accepts the canonical sealed print line
(six tokens, matching the template's first six kinds). -/
theorem C8_witness :
    verifyTree [createToken TokenType.Print "print", createToken TokenType.ParentesesE "(",
      createToken TokenType.SingleQuote (String.singleton (Char.ofNat 39)),
      createToken TokenType.Ident "x",
      createToken TokenType.SingleQuote (String.singleton (Char.ofNat 39)),
      createToken TokenType.ParentesesD ")"] "print" = true := by
  exact (C8_theorem.2 _).mpr ⟨by decide, by decide⟩

/-- Claim C8 counterexample: the table's `print` entry is not the six-kind
sequence the claim states — it carries a seventh kind, the terminator. -/
theorem C8_counterexample :
    ¬ (treeMap "print" = some [TokenType.Print, TokenType.ParentesesE, TokenType.SingleQuote,
        TokenType.Ident, TokenType.SingleQuote, TokenType.ParentesesD]) := by
  decide

/-- Claim C9 (confirmed): a print line on which a non-declared token's
literal collides with a table key makes `hasVariable` report true while the
first `Identifier` token's literal is absent from the table; the unguarded
lookup then errors (modelled `TypeError`), not a clean undefined-variable
error — exhibited by `var y = 1!` followed by `print('x') y!`. -/
theorem C9_theorem :
    hasVariable [("y", IVariable.mk "var var" VType.number "1")]
      [createToken TokenType.Print "print", createToken TokenType.ParentesesE "(",
       createToken TokenType.SingleQuote (String.singleton (Char.ofNat 39)),
       createToken TokenType.Ident "x",
       createToken TokenType.SingleQuote (String.singleton (Char.ofNat 39)),
       createToken TokenType.ParentesesD ")", createToken TokenType.Ident "y"] = true
    ∧ ([createToken TokenType.Print "print", createToken TokenType.ParentesesE "(",
        createToken TokenType.SingleQuote (String.singleton (Char.ofNat 39)),
        createToken TokenType.Ident "x",
        createToken TokenType.SingleQuote (String.singleton (Char.ofNat 39)),
        createToken TokenType.ParentesesD ")",
        createToken TokenType.Ident "y"].filter (kindIs TokenType.Ident)).head?
        = some (createToken TokenType.Ident "x")
    ∧ vget [("y", IVariable.mk "var var" VType.number "1")] "x" = none
    ∧ (interpretLine [("y", IVariable.mk "var var" VType.number "1")]
        [createToken TokenType.Print "print", createToken TokenType.ParentesesE "(",
         createToken TokenType.SingleQuote (String.singleton (Char.ofNat 39)),
         createToken TokenType.Ident "x",
         createToken TokenType.SingleQuote (String.singleton (Char.ofNat 39)),
         createToken TokenType.ParentesesD ")", createToken TokenType.Ident "y"]).2
        = Except.error typeErrUndefined
    ∧ program (String.mk ['v','a','r',' ','y',' ','=',' ','1','!','p','r','i','n','t','(',
        Char.ofNat 39, 'x', Char.ofNat 39, ')',' ','y','!'])
        = Except.error typeErrUndefined := by
  exact ⟨rfl, rfl, rfl, rfl, rfl⟩

/-- Claim C10 (confirmed): a line whose dispatch reaches a `VarKeyword`
token but holds fewer than two tokens makes the unconditional read of line
position 1 fail with a runtime type error that aborts the run — the line is
not silently ignored. -/
theorem C10_theorem :
    ∀ (vars : VMap) (line : List Token) (ls : List (List Token)) (vtok : Token),
      line.length < 2 → vtok ∈ line → vtok.type = TokenType.Variable →
      interpretLines vars (line :: ls) = Except.error typeErrLiteral := by
  intro vars line ls vtok hlen hmem hv
  cases line with
  | nil => simp at hmem
  | cons t rest =>
    cases rest with
    | nil =>
      have ht : vtok = t := List.mem_singleton.mp hmem
      have hv' : t.type = TokenType.Variable := ht ▸ hv
      have hnp : ¬ t.type = TokenType.Print := by simp [hv']
      have hline : (lineLoop [t] [t] vars).2 = Except.error typeErrLiteral := by
        simp [lineLoop, hnp, hv']
      simp [interpretLines, hline]
    | cons t2 rest2 =>
      simp at hlen
      omega

/-- Claim C10 witness: the theorem applied to the lexed line of `var!`
(the single `var` keyword token): the run aborts with the type error. -/
theorem C10_witness :
    interpretLines [] [[createToken TokenType.Variable "var"]]
      = Except.error typeErrLiteral :=
  C10_theorem [] [createToken TokenType.Variable "var"] []
    (createToken TokenType.Variable "var") (by decide) (by simp) rfl


end DB
